import Mathlib

/-!
Verification of the Papallacta paramo weather-prediction service
(`src/` of lxgonzalez/modelo_papallacta_paramh2o): a shallow embedding of
the serving-time pipeline — data cleaning, API-response validation,
sequence windowing, prediction validation, nearest-station selection,
the model registry and the `/predict` orchestrator — together with
theorems settling the specification's claims about them.

Numeric modelling: series values are rationals (`ℚ`); Python floats that
can be `NaN`/`Inf` (model outputs) are modelled by the inductive `PFloat`;
geographic distances use `ℝ` with `Real.sqrt`, matching `math.sqrt`.
-/

namespace Papallacta

/-- A raw entry of an hourly series in the external weather API's JSON
response: JSON null, a numeric value (the rational `float()` yields), or
a value `float()` cannot convert (raising `ValueError`/`TypeError`). -/
inductive RawItem where
  | null : RawItem
  | num : ℚ → RawItem
  | junk : RawItem
deriving DecidableEq

/-- `WeatherDataService._clean_numeric_data` (weather_service.py 115-126):
replaces each `None` entry by `0.0`, keeps convertible entries as their
float value, and replaces non-convertible entries by `0.0`; the Python
loop appends one output per input, which is a `map`. -/
def clean_numeric_data (data : List RawItem) : List ℚ :=
  data.map fun item =>
    match item with
    | .null => 0
    | .num q => q
    | .junk => 0

/-- The `hourly` block of an Open-Meteo archive response; each field is
`none` when its key is absent from the JSON object. -/
structure HourlyBlock where
  temperature_2m : Option (List RawItem)
  precipitation : Option (List RawItem)
  relative_humidity_2m : Option (List RawItem)
  time : Option (List String)

/-- An Open-Meteo archive API response body; `hourly` is `none` when the
`hourly` key is absent. -/
structure ApiResponseData where
  hourly : Option HourlyBlock

/-- The errors `_validate_api_response` raises (as `ValueError`s in the
source). -/
inductive ApiError where
  | missingHourly : ApiError
  | missingTemperature : ApiError
  | missingPrecipitation : ApiError
  | missingHumidity : ApiError
deriving DecidableEq

/-- `WeatherDataService._validate_api_response` (weather_service.py 77-87):
fails when the `hourly` block is absent, then checks the three required
keys in the source's `required_keys` order. No length comparison between
the three series is performed. -/
def validate_api_response (d : ApiResponseData) : Except ApiError Unit :=
  match d.hourly with
  | none => .error .missingHourly
  | some h =>
    if h.temperature_2m.isNone then .error .missingTemperature
    else if h.precipitation.isNone then .error .missingPrecipitation
    else if h.relative_humidity_2m.isNone then .error .missingHumidity
    else .ok ()

/-- `HistoricalWeatherData` (data_models.py 59-80): the three feature
series, timestamps and the date bounds. The dataclass declares no
validation of its own. -/
structure HistoricalWeatherData where
  temperatures : List ℚ
  precipitations : List ℚ
  humidity : List ℚ
  timestamps : List String
  start_date : String
  end_date : String

/-- `WeatherDataService._process_api_response` (weather_service.py
89-113): extracts the three series (a missing key here would be a Python
`KeyError`, modelled as `none`; unreachable after validation), cleans
each with `_clean_numeric_data`, takes `time` with default `[]`, and
constructs `HistoricalWeatherData`. -/
def process_api_response (d : ApiResponseData) (sd ed : String) :
    Option HistoricalWeatherData :=
  match d.hourly with
  | none => none
  | some h =>
    match h.temperature_2m, h.precipitation, h.relative_humidity_2m with
    | some ts, some ps, some hs =>
      some { temperatures := clean_numeric_data ts
             precipitations := clean_numeric_data ps
             humidity := clean_numeric_data hs
             timestamps := h.time.getD []
             start_date := sd
             end_date := ed }
    | _, _, _ => none

/-- The fetch pipeline of `get_historical_data` after the HTTP request
returned `d` (weather_service.py 41-50, 65-72): `_validate_api_response`
then `_process_api_response`. -/
def fetch_and_process (d : ApiResponseData) (sd ed : String) :
    Except ApiError HistoricalWeatherData :=
  match validate_api_response d with
  | .error e => .error e
  | .ok _ =>
    match process_api_response d sd ed with
    | some h => .ok h
    | none => .error .missingHourly

/-- The configured window length `AppConfig.TIME_STEP` (settings.py 24). -/
def TIME_STEP : ℕ := 30

/-- The error `_create_sequences` raises when the series is shorter than
the window (a `ValueError` in the source). -/
inductive SequenceError where
  | insufficientData : SequenceError
deriving DecidableEq

/-- `PredictionService._create_sequences` (prediction_service.py 65-78):
fails when fewer than `time_step` rows are available, otherwise returns
`data_scaled[i : i + time_step]` for each
`i ∈ range (len(data_scaled) - time_step + 1)`. -/
def create_sequences (time_step : ℕ) (d : List (List ℚ)) :
    Except SequenceError (List (List (List ℚ))) :=
  if d.length < time_step then .error .insufficientData
  else .ok ((List.range (d.length - time_step + 1)).map
    fun i => (d.drop i).take time_step)

/-- A Python/NumPy float as the prediction arrays hold them: a finite
rational, `NaN`, `+Inf` or `-Inf`. -/
inductive PFloat where
  | fin : ℚ → PFloat
  | nan : PFloat
  | inf : PFloat
  | ninf : PFloat
deriving DecidableEq

/-- `np.isnan` on one element. -/
def PFloat.isNaN : PFloat → Bool
  | .nan => true
  | _ => false

/-- `np.isinf` on one element (true for both infinities). -/
def PFloat.isInf : PFloat → Bool
  | .inf => true
  | .ninf => true
  | _ => false

/-- IEEE comparison `x < c` against a finite constant `c`: `NaN`
compares false, `+Inf` is not below any finite value, `-Inf` is below
every finite value. -/
def PFloat.ltc (x : PFloat) (c : ℚ) : Bool :=
  match x with
  | .fin q => decide (q < c)
  | .nan => false
  | .inf => false
  | .ninf => true

/-- IEEE comparison `x > c` against a finite constant `c`. -/
def PFloat.gtc (x : PFloat) (c : ℚ) : Bool :=
  match x with
  | .fin q => decide (c < q)
  | .nan => false
  | .inf => true
  | .ninf => false

/-- `ndarray.size` of a 2D array given as its list of rows: the total
element count. -/
def npSize (p : List (List α)) : ℕ := (p.map List.length).sum

/-- `ndarray.shape[1]` of a rectangular 2D array given as its list of
rows. -/
def npCols (p : List (List α)) : ℕ := (p.headD []).length

/-- `predictions[:, j]`: column `j` of the batch (each row of a
rectangular array with more than `j` columns has an entry there; the
default is never reached on such input). -/
def npColumn (p : List (List PFloat)) (j : ℕ) : List PFloat :=
  p.map fun row => row.getD j (.fin 0)

/-- `PredictionService.validate_predictions` (prediction_service.py
109-126): false for a size-0 batch or one containing `Inf`/`NaN`; when
the batch has at least 3 columns, also false when column 1 (the
temperature component) has a value below −50 or above 60; true
otherwise. -/
def validate_predictions (p : List (List PFloat)) : Bool :=
  if npSize p = 0 then false
  else if (p.any fun row => row.any PFloat.isInf) ||
          (p.any fun row => row.any PFloat.isNaN) then false
  else if 3 ≤ npCols p then
    if ((npColumn p 1).any fun v => v.ltc (-50)) ||
       ((npColumn p 1).any fun v => v.gtc 60) then false
    else true
  else true

/-- `StationConfig.get_station_names()` (settings.py 40-45, 53-56): the
configured station identifiers in the dict's insertion (iteration)
order. -/
def station_names : List String := ["M5023", "M5025", "P34", "P63"]

/-- The mutable maps and lists of `StationService` (station_service.py
20-26). The model and scaler dicts map station names to loaded
artifacts; the artifact objects themselves are opaque to every claim, so
the maps are modelled by their key lists. -/
structure Registry where
  models : List String
  scalers : List String
  loaded_stations : List String
  failed_stations : List String

/-- One iteration of the `load_all_models` loop (station_service.py
32-45) for station `name`, given which artifact loads succeed: the model
is loaded first, then the scaler; only when both succeed are the two map
entries and the loaded-list entry written, so a failure at either load
leaves the registry's maps untouched and appends to the failed list. -/
def load_station (mOk sOk : String → Bool) (st : Registry) (name : String) :
    Registry :=
  if mOk name then
    if sOk name then
      { models := st.models ++ [name]
        scalers := st.scalers ++ [name]
        loaded_stations := st.loaded_stations ++ [name]
        failed_stations := st.failed_stations }
    else { st with failed_stations := st.failed_stations ++ [name] }
  else { st with failed_stations := st.failed_stations ++ [name] }

/-- `StationService.load_all_models` (station_service.py 28-48), starting
from the empty registry of `__init__`. `mOk name` / `sOk name` say whether
the station's model / scaler artifact loads without an exception. -/
def load_all_models (mOk sOk : String → Bool) : Registry :=
  station_names.foldl (load_station mOk sOk) ⟨[], [], [], []⟩

/-- `StationService.is_model_available` (station_service.py 115-117):
membership in both the model map and the scaler map. -/
def is_model_available (st : Registry) (name : String) : Bool :=
  decide (name ∈ st.models) && decide (name ∈ st.scalers)

/-- `StationService.get_available_stations` (station_service.py
126-128). -/
def get_available_stations (st : Registry) : List String :=
  st.loaded_stations.filter fun s => is_model_available st s

/-- A column entry as `DataCleaner.interpolate_missing_values` sees it:
`none` models a missing value (Python `None` or a float `NaN`, exactly
the entries failing `val is not None and not math.isnan(val)`), `some q`
a present finite value. -/
abbrev ColEntry := Option ℚ

/-- The `valid_indices` list of `interpolate_missing_values`
(validators.py 142): indices of present values, ascending, built by
`enumerate`. -/
def valid_indices (data : List ColEntry) : List ℕ :=
  (List.range data.length).filter fun i => (data.getD i none).isSome

/-- The neighbor-search loop of `interpolate_missing_values`
(validators.py 151-160): walks `valid_indices` keeping the last index
below `i` as `prev_idx`, and stops (`break`) at the first index above
`i`, returning it as `next_idx`. -/
def find_prev_next (i : ℕ) : List ℕ → Option ℕ → Option ℕ × Option ℕ
  | [], prev => (prev, none)
  | idx :: rest, prev =>
    if idx < i then find_prev_next i rest (some idx)
    else if i < idx then (prev, some idx)
    else find_prev_next i rest prev

/-- The body of the `for i in range(len(data))` loop for one invalid
index `i` (validators.py 150-172): linear interpolation between
`prev_idx` and `next_idx` when both exist, the single neighbor's value
when only one exists, and the original entry when neither does. -/
def interpolate_at (data : List ColEntry) (vs : List ℕ) (i : ℕ) : ColEntry :=
  match find_prev_next i vs none with
  | (some p, some n) =>
    let y0 := (data.getD p none).getD 0
    let y1 := (data.getD n none).getD 0
    some (y0 + (y1 - y0) * ((i : ℚ) - (p : ℚ)) / ((n : ℚ) - (p : ℚ)))
  | (some p, none) => data.getD p none
  | (none, some n) => data.getD n none
  | (none, none) => data.getD i none

/-- `DataCleaner.interpolate_missing_values` (validators.py 135-174):
returns the column unchanged when it is empty or has fewer than 2 valid
entries; otherwise copies it and overwrites each invalid position from
its nearest valid neighbors. -/
def interpolate_missing_values (data : List ColEntry) : List ColEntry :=
  if data.isEmpty then data
  else if (valid_indices data).length < 2 then data
  else (List.range data.length).map fun i =>
    if i ∈ valid_indices data then data.getD i none
    else interpolate_at data (valid_indices data) i

/-! ## Helper lemmas -/

/-- Closed form of the `load_all_models` fold: the model map, scaler map
and loaded list each collect exactly the stations whose two artifact
loads both succeed, in order; the failed list collects the rest. -/
theorem load_foldl_spec (mOk sOk : String → Bool) :
    ∀ (l : List String) (st : Registry),
      (l.foldl (load_station mOk sOk) st).models
          = st.models ++ l.filter (fun n => mOk n && sOk n) ∧
      (l.foldl (load_station mOk sOk) st).scalers
          = st.scalers ++ l.filter (fun n => mOk n && sOk n) ∧
      (l.foldl (load_station mOk sOk) st).loaded_stations
          = st.loaded_stations ++ l.filter (fun n => mOk n && sOk n) ∧
      (l.foldl (load_station mOk sOk) st).failed_stations
          = st.failed_stations ++ l.filter (fun n => !(mOk n && sOk n)) := by
  intro l
  induction l with
  | nil => simp
  | cons n rest ih =>
    intro st
    obtain ⟨h1, h2, h3, h4⟩ := ih (load_station mOk sOk st n)
    by_cases hm : mOk n
    · by_cases hs : sOk n
      · simp [load_station, hm, hs] at h1 h2 h3 h4
        refine ⟨?_, ?_, ?_, ?_⟩ <;>
          simp [List.foldl_cons, List.filter_cons, hm, hs, load_station,
            h1, h2, h3, h4, List.append_assoc]
      · simp [load_station, hm, hs] at h1 h2 h3 h4
        refine ⟨?_, ?_, ?_, ?_⟩ <;>
          simp [List.foldl_cons, List.filter_cons, hm, hs, load_station,
            h1, h2, h3, h4, List.append_assoc]
    · simp [load_station, hm] at h1 h2 h3 h4
      refine ⟨?_, ?_, ?_, ?_⟩ <;>
        simp [List.foldl_cons, List.filter_cons, hm, load_station,
          h1, h2, h3, h4, List.append_assoc]

/-! ## Claim theorems -/

/-- Indexing a mapped range with `getD` evaluates the function. -/
theorem getD_map_range {α : Type} (f : ℕ → α) (n i : ℕ) (h : i < n)
    (dflt : α) : ((List.range n).map f).getD i dflt = f i := by
  rw [List.getD_eq_getElem?_getD, List.getElem?_map, List.getElem?_range h]
  rfl

/-- Claim C2: sequence windowing. For a normalized history `d` and window
length `W`, `_create_sequences` fails with `InsufficientData` when
`d.length < W`, and otherwise produces exactly `d.length - W + 1`
(`= max 0 (L - W + 1)`) windows, each of length `W`, the `i`-th window
holding rows `d[i], …, d[i+W-1]` — all overlapping windows in order. -/
theorem create_sequences_windowing : ∀ (W : ℕ) (d : List (List ℚ)),
    (d.length < W → create_sequences W d = .error .insufficientData)
    ∧ (W ≤ d.length →
        ∃ ws, create_sequences W d = .ok ws ∧
          ws.length = d.length - W + 1 ∧
          ((ws.length : ℤ) = max 0 ((d.length : ℤ) - (W : ℤ) + 1)) ∧
          (∀ i, i < ws.length → (ws.getD i []).length = W) ∧
          (∀ i j, i < ws.length → j < W →
            (ws.getD i []).getD j [] = d.getD (i + j) [])) := by
  intro W d
  constructor
  · intro h
    simp [create_sequences, h]
  · intro h
    refine ⟨(List.range (d.length - W + 1)).map fun i => (d.drop i).take W,
      ?_, ?_, ?_, ?_, ?_⟩
    · simp [create_sequences, Nat.not_lt.2 h]
    · simp
    · have hc : ((d.length - W : ℕ) : ℤ) = (d.length : ℤ) - (W : ℤ) :=
        Int.ofNat_sub h
      simp only [List.length_map, List.length_range]
      push_cast [hc]
      omega
    · intro i hi
      simp only [List.length_map, List.length_range] at hi
      rw [getD_map_range _ _ _ hi]
      simp only [List.length_take, List.length_drop]
      omega
    · intro i j hi hj
      simp only [List.length_map, List.length_range] at hi
      rw [getD_map_range _ _ _ hi, List.getD_eq_getElem?_getD,
        List.getElem?_take, List.getElem?_drop, List.getD_eq_getElem?_getD,
        if_pos hj]

/-- Claim C9: fetch-time cleaning never drops an entry. The cleaned list
has exactly the input's length, and position by position a null or
non-convertible entry becomes `0.0` while a numeric entry keeps its
float value — so positional alignment across series is preserved. -/
theorem clean_numeric_data_pointwise : ∀ data : List RawItem,
    (clean_numeric_data data).length = data.length ∧
    ∀ i, i < data.length →
      (clean_numeric_data data).getD i 0 =
        match data.getD i .junk with
        | .null => 0
        | .num q => q
        | .junk => 0 := by
  intro data
  refine ⟨by simp [clean_numeric_data], ?_⟩
  intro i hi
  rw [clean_numeric_data, List.getD_eq_getElem?_getD, List.getElem?_map,
    List.getElem?_eq_getElem hi, List.getD_eq_getElem?_getD,
    List.getElem?_eq_getElem hi]
  rcases data[i] with _ | q | _ <;> rfl

/-- An API response whose three hourly series have pairwise different
lengths (1, 2 and 0) but which carries the `hourly` block and all three
required keys. -/
def unequalLengthResponse : ApiResponseData :=
  { hourly := some
      { temperature_2m := some [RawItem.num 1]
        precipitation := some [RawItem.num 1, RawItem.num 2]
        relative_humidity_2m := some []
        time := none } }

/-- Claim C3 counterexample: a response whose three series have unequal
lengths passes `_validate_api_response` and a `HistoricalWeatherData`
with series lengths 1, 2 and 0 is constructed — it is not rejected, and
the constructed object's three feature series differ in length. -/
theorem unequal_series_not_rejected :
    (fetch_and_process unequalLengthResponse ("2024-05-02") ("2024-06-01")).toOption.map
        (fun h => (h.temperatures.length, h.precipitations.length,
          h.humidity.length)) = some (1, 2, 0) ∧
    validate_api_response unequalLengthResponse = .ok () := by
  constructor
  · rfl
  · rfl

/-- Claim C3 as amended: a response lacking the `hourly` block or any of
the three required series is rejected before any `HistoricalWeatherData`
is constructed — validation succeeds exactly when all are present — but
no equal-length check is performed: a constructed value's three feature
series have exactly the lengths of the corresponding raw series, which
may differ. -/
theorem api_response_validation_spec : ∀ d : ApiResponseData,
    (validate_api_response d = .ok () ↔
      ∃ h, d.hourly = some h ∧ h.temperature_2m.isSome = true ∧
        h.precipitation.isSome = true ∧
        h.relative_humidity_2m.isSome = true) ∧
    (∀ sd ed hist, fetch_and_process d sd ed = .ok hist →
      ∃ h ts ps hs, d.hourly = some h ∧ h.temperature_2m = some ts ∧
        h.precipitation = some ps ∧ h.relative_humidity_2m = some hs ∧
        hist.temperatures.length = ts.length ∧
        hist.precipitations.length = ps.length ∧
        hist.humidity.length = hs.length) := by
  rintro ⟨_ | ⟨t, p, hu, tm⟩⟩
  · refine ⟨by simp [validate_api_response], ?_⟩
    intro sd ed hist hok
    simp [fetch_and_process, validate_api_response] at hok
  · rcases t with _ | ts
    · refine ⟨by simp [validate_api_response], ?_⟩
      intro sd ed hist hok
      simp [fetch_and_process, validate_api_response] at hok
    · rcases p with _ | ps
      · refine ⟨by simp [validate_api_response], ?_⟩
        intro sd ed hist hok
        simp [fetch_and_process, validate_api_response] at hok
      · rcases hu with _ | hs
        · refine ⟨by simp [validate_api_response], ?_⟩
          intro sd ed hist hok
          simp [fetch_and_process, validate_api_response] at hok
        · refine ⟨by simp [validate_api_response], ?_⟩
          intro sd ed hist hok
          simp only [fetch_and_process, validate_api_response,
            process_api_response, Option.isNone_some, if_false,
            Bool.false_eq_true, Except.ok.injEq] at hok
          refine ⟨⟨some ts, some ps, some hs, tm⟩, ts, ps, hs,
            rfl, rfl, rfl, rfl, ?_, ?_, ?_⟩ <;>
            rw [← hok] <;> simp [clean_numeric_data]

/-- Claim C5 counterexample: the single-row batch `[[0, 100]]` is
non-empty, all-finite, and its column-1 value 100 exceeds 60, yet
`validate_predictions` accepts it (returns true): the temperature-range
check only runs when the batch has at least 3 columns, and this batch
has 2. -/
theorem validate_predictions_two_columns :
    validate_predictions [[PFloat.fin 0, PFloat.fin 100]] = true ∧
    npColumn [[PFloat.fin 0, PFloat.fin 100]] 1 = [PFloat.fin 100] ∧
    npCols [[PFloat.fin 0, PFloat.fin 100]] = 2 ∧ ((60 : ℚ) < 100) := by
  refine ⟨by rfl, by rfl, by rfl, by norm_num⟩

/-- Claim C5 as amended: `validate_predictions` returns false for every
batch of total size 0, for every batch containing a `NaN` or infinite
value, and — when the batch has at least 3 columns — for every batch
whose column-1 (temperature) component has a value below −50 or above 60
(batches with fewer than 3 columns skip the temperature check); it
returns true for every batch of nonzero size, free of `NaN`/`Inf`, whose
column-1 values all lie within `[-50, 60]`. -/
theorem validate_predictions_cases : ∀ p : List (List PFloat),
    (npSize p = 0 → validate_predictions p = false)
    ∧ ((∃ row ∈ p, ∃ v ∈ row, v.isNaN = true ∨ v.isInf = true) →
        validate_predictions p = false)
    ∧ (3 ≤ npCols p →
        (∃ v ∈ npColumn p 1, v.ltc (-50) = true ∨ v.gtc 60 = true) →
        validate_predictions p = false)
    ∧ (npSize p ≠ 0 →
        (∀ row ∈ p, ∀ v ∈ row, v.isNaN = false ∧ v.isInf = false) →
        (∀ q : ℚ, PFloat.fin q ∈ npColumn p 1 → -50 ≤ q ∧ q ≤ 60) →
        validate_predictions p = true) := by
  intro p
  refine ⟨?_, ?_, ?_, ?_⟩
  · intro h
    simp [validate_predictions, h]
  · rintro ⟨row, hrow, v, hv, hbad⟩
    have hsz : npSize p ≠ 0 := by
      have h1 : 0 < row.length := List.length_pos.mpr (List.ne_nil_of_mem hv)
      have h2 : row.length ≤ npSize p :=
        List.single_le_sum (by simp) _ (List.mem_map_of_mem List.length hrow)
      omega
    have hcond : ((p.any fun row => row.any PFloat.isInf) ||
        (p.any fun row => row.any PFloat.isNaN)) = true := by
      rcases hbad with hb | hb
      · exact Bool.or_eq_true_iff.mpr (Or.inr (List.any_eq_true.mpr
          ⟨row, hrow, List.any_eq_true.mpr ⟨v, hv, hb⟩⟩))
      · exact Bool.or_eq_true_iff.mpr (Or.inl (List.any_eq_true.mpr
          ⟨row, hrow, List.any_eq_true.mpr ⟨v, hv, hb⟩⟩))
    simp only [validate_predictions]
    rw [if_neg hsz, if_pos hcond]
  · rintro h3 ⟨v, hv, hbad⟩
    simp only [validate_predictions]
    by_cases hsz : npSize p = 0
    · rw [if_pos hsz]
    · rw [if_neg hsz]
      by_cases hbv : ((p.any fun row => row.any PFloat.isInf) ||
          (p.any fun row => row.any PFloat.isNaN)) = true
      · rw [if_pos hbv]
      · have hcond : (((npColumn p 1).any fun v => v.ltc (-50)) ||
            ((npColumn p 1).any fun v => v.gtc 60)) = true := by
          rcases hbad with hb | hb
          · exact Bool.or_eq_true_iff.mpr
              (Or.inl (List.any_eq_true.mpr ⟨v, hv, hb⟩))
          · exact Bool.or_eq_true_iff.mpr
              (Or.inr (List.any_eq_true.mpr ⟨v, hv, hb⟩))
        rw [if_neg hbv, if_pos h3, if_pos hcond]
  · intro hsz hfin hrange
    have hfinCol : ∀ v ∈ npColumn p 1, ∃ q, v = PFloat.fin q := by
      intro v hv
      rcases List.mem_map.mp hv with ⟨row, hrow, rfl⟩
      rcases hx : row[1]? with _ | x
      · exact ⟨0, by simp [List.getD_eq_getElem?_getD, hx]⟩
      · have hxm : x ∈ row := List.getElem?_mem hx
        have hok := hfin row hrow x hxm
        cases x with
        | fin q => exact ⟨q, by simp [List.getD_eq_getElem?_getD, hx]⟩
        | nan => simp [PFloat.isNaN] at hok
        | inf => simp [PFloat.isInf] at hok
        | ninf => simp [PFloat.isInf] at hok
    have hInf : (p.any fun row => row.any PFloat.isInf) = false := by
      rw [List.any_eq_false]
      intro row hrow
      simp only [Bool.not_eq_true, List.any_eq_false]
      intro v hv
      simp [(hfin row hrow v hv).2]
    have hNaN : (p.any fun row => row.any PFloat.isNaN) = false := by
      rw [List.any_eq_false]
      intro row hrow
      simp only [Bool.not_eq_true, List.any_eq_false]
      intro v hv
      simp [(hfin row hrow v hv).1]
    simp only [validate_predictions]
    rw [if_neg hsz]
    rw [if_neg (by simp [hInf, hNaN])]
    by_cases h3 : 3 ≤ npCols p
    · have hLt : ((npColumn p 1).any fun v => v.ltc (-50)) = false := by
        rw [List.any_eq_false]
        intro v hv
        obtain ⟨q, rfl⟩ := hfinCol v hv
        have := (hrange q hv).1
        simp [PFloat.ltc]
        linarith
      have hGt : ((npColumn p 1).any fun v => v.gtc 60) = false := by
        rw [List.any_eq_false]
        intro v hv
        obtain ⟨q, rfl⟩ := hfinCol v hv
        have := (hrange q hv).2
        simp [PFloat.gtc]
        linarith
      rw [if_pos h3, if_neg (by simp [hLt, hGt])]
    · rw [if_neg h3]

/-- Claim C10: after `load_all_models`, every configured station is in
exactly one of the loaded and failed lists; a failed station has an
entry in neither the model map nor the scaler map (the two loads
precede both map insertions, so a station's load is atomic); and
`is_model_available` is true exactly for the stations of the loaded
list. -/
theorem load_all_models_partition : ∀ (mOk sOk : String → Bool)
    (name : String),
    (name ∈ station_names →
      ((name ∈ (load_all_models mOk sOk).loaded_stations ∧
        name ∉ (load_all_models mOk sOk).failed_stations) ∨
       (name ∈ (load_all_models mOk sOk).failed_stations ∧
        name ∉ (load_all_models mOk sOk).loaded_stations)))
    ∧ (name ∈ (load_all_models mOk sOk).failed_stations →
        name ∉ (load_all_models mOk sOk).models ∧
        name ∉ (load_all_models mOk sOk).scalers)
    ∧ (is_model_available (load_all_models mOk sOk) name = true ↔
        name ∈ (load_all_models mOk sOk).loaded_stations) := by
  intro mOk sOk name
  obtain ⟨h1, h2, h3, h4⟩ := load_foldl_spec mOk sOk station_names ⟨[], [], [], []⟩
  simp only [List.nil_append] at h1 h2 h3 h4
  have hM : name ∈ (load_all_models mOk sOk).models ↔
      name ∈ station_names ∧ (mOk name && sOk name) = true := by
    rw [load_all_models, h1]
    exact List.mem_filter
  have hS : name ∈ (load_all_models mOk sOk).scalers ↔
      name ∈ station_names ∧ (mOk name && sOk name) = true := by
    rw [load_all_models, h2]
    exact List.mem_filter
  have hL : name ∈ (load_all_models mOk sOk).loaded_stations ↔
      name ∈ station_names ∧ (mOk name && sOk name) = true := by
    rw [load_all_models, h3]
    exact List.mem_filter
  have hF : name ∈ (load_all_models mOk sOk).failed_stations ↔
      name ∈ station_names ∧ (mOk name && sOk name) = false := by
    rw [load_all_models, h4, List.mem_filter]
    simp only [Bool.not_eq_true']
  have hA : is_model_available (load_all_models mOk sOk) name = true ↔
      name ∈ (load_all_models mOk sOk).models ∧
      name ∈ (load_all_models mOk sOk).scalers := by
    rw [is_model_available, Bool.and_eq_true, decide_eq_true_iff,
      decide_eq_true_iff]
  refine ⟨?_, ?_, ?_⟩
  · intro hmem
    cases hb : (mOk name && sOk name) with
    | false =>
      exact Or.inr ⟨hF.mpr ⟨hmem, hb⟩, fun hc => by simp [hL, hb] at hc⟩
    | true =>
      exact Or.inl ⟨hL.mpr ⟨hmem, hb⟩, fun hc => by simp [hF, hb] at hc⟩
  · intro hf
    have hb := (hF.mp hf).2
    exact ⟨fun hc => by simp [hM, hb] at hc, fun hc => by simp [hS, hb] at hc⟩
  · constructor
    · intro hav
      obtain ⟨hmem, hb⟩ := hM.mp (hA.mp hav).1
      exact hL.mpr ⟨hmem, hb⟩
    · intro hml
      obtain ⟨hmem, hb⟩ := hL.mp hml
      exact hA.mpr ⟨hM.mpr ⟨hmem, hb⟩, hS.mpr ⟨hmem, hb⟩⟩

/-- Membership in `valid_indices` is being an in-range index holding a
present value. -/
theorem mem_valid_indices (data : List ColEntry) (i : ℕ) :
    i ∈ valid_indices data ↔
      i < data.length ∧ (data.getD i none).isSome = true := by
  rw [valid_indices, List.mem_filter, List.mem_range]

/-- `valid_indices` is strictly ascending (it filters `range`). -/
theorem valid_indices_sorted (data : List ColEntry) :
    (valid_indices data).Pairwise (· < ·) :=
  List.Pairwise.filter _ (List.pairwise_lt_range _)

/-- `getLast?` of a cons, with the head as fallback. -/
theorem getLast?_cons_or (a : ℕ) (l : List ℕ) :
    (a :: l).getLast? = l.getLast?.or (some a) := by
  cases l with
  | nil => rfl
  | cons b t =>
    rw [List.getLast?_cons_cons]
    rcases hx : (b :: t).getLast? with _ | x
    · have hs : (b :: t).getLast?.isSome = true :=
        List.getLast?_isSome.mpr (by simp)
      rw [hx] at hs
      cases hs
    · rfl

/-- In a strictly ascending list, a member bounding every element from
above is the last element. -/
theorem sorted_getLast?_eq : ∀ (l : List ℕ), l.Pairwise (· < ·) →
    ∀ p : ℕ, p ∈ l → (∀ j ∈ l, j ≤ p) → l.getLast? = some p := by
  intro l
  induction l with
  | nil => intro _ p hp _; cases hp
  | cons a t ih =>
    intro hs p hp hmax
    obtain ⟨ha, hts⟩ := List.pairwise_cons.mp hs
    rw [getLast?_cons_or]
    cases t with
    | nil =>
      simp only [List.mem_singleton] at hp
      subst hp
      rfl
    | cons b t2 =>
      have hpt : p ∈ b :: t2 := by
        rcases List.mem_cons.mp hp with rfl | h
        · exfalso
          have hab : p < b := ha b (by simp)
          have hbp : b ≤ p := hmax b (by simp)
          omega
        · exact h
      rw [ih hts p hpt fun j hj => hmax j (List.mem_cons_of_mem _ hj)]
      rfl

/-- In a strictly ascending list, a member bounding every element from
below is the head. -/
theorem sorted_head?_eq : ∀ (l : List ℕ), l.Pairwise (· < ·) →
    ∀ n : ℕ, n ∈ l → (∀ j ∈ l, n ≤ j) → l.head? = some n := by
  intro l hs n hn hmin
  cases l with
  | nil => cases hn
  | cons a t =>
    rcases List.mem_cons.mp hn with rfl | h
    · rfl
    · exfalso
      have h1 : a < n := (List.pairwise_cons.mp hs).1 n h
      have h2 : n ≤ a := hmin a (by simp)
      omega

/-- On a strictly ascending list not containing `i`, the neighbor-search
loop returns the last valid index below `i` (falling back to the
accumulator) and the first valid index above `i`. -/
theorem find_prev_next_sorted (i : ℕ) : ∀ (vs : List ℕ),
    vs.Pairwise (· < ·) → i ∉ vs → ∀ acc : Option ℕ,
    find_prev_next i vs acc =
      ((vs.filter fun j => decide (j < i)).getLast?.or acc,
       (vs.filter fun j => decide (i < j)).head?) := by
  intro vs
  induction vs with
  | nil => intro _ _ acc; simp [find_prev_next]
  | cons x rest ih =>
    intro hs hni acc
    obtain ⟨hx, hrest⟩ := List.pairwise_cons.mp hs
    have hnir : i ∉ rest := fun h => hni (List.mem_cons_of_mem _ h)
    by_cases h1 : x < i
    · rw [find_prev_next, if_pos h1, ih hrest hnir (some x)]
      have hfx : (x :: rest).filter (fun j => decide (j < i)) =
          x :: rest.filter fun j => decide (j < i) := by
        simp [List.filter_cons, h1]
      have hgx : (x :: rest).filter (fun j => decide (i < j)) =
          rest.filter fun j => decide (i < j) := by
        simp only [List.filter_cons, decide_eq_true_eq]
        rw [if_neg (by omega)]
      rw [hfx, hgx, getLast?_cons_or, Option.or_assoc]
      rfl
    · by_cases h2 : i < x
      · rw [find_prev_next, if_neg h1, if_pos h2]
        have hfx : (x :: rest).filter (fun j => decide (j < i)) = [] := by
          rw [List.filter_eq_nil_iff]
          intro a ha
          rcases List.mem_cons.mp ha with rfl | ha2
          · simpa using h1
          · have := hx a ha2
            simp only [decide_eq_true_eq]
            omega
        have hgx : (x :: rest).filter (fun j => decide (i < j)) =
            x :: rest.filter fun j => decide (i < j) := by
          simp [List.filter_cons, h2]
        rw [hfx, hgx]
        rfl
      · exfalso
        have hxi : x = i := by omega
        exact hni (hxi ▸ List.mem_cons_self x rest)

/-- Two distinct members force length at least 2. -/
theorem two_mem_two_le_length : ∀ (l : List ℕ) (p q : ℕ), p ∈ l → q ∈ l →
    p ≠ q → 2 ≤ l.length
  | [], p, q, hp, _, _ => by cases hp
  | [a], p, q, hp, hq, hne => by
    simp only [List.mem_singleton] at hp hq
    exact absurd (hp.trans hq.symm) hne
  | a :: b :: t, _, _, _, _, _ => by
    simp only [List.length_cons]
    omega

/-- On an invalid in-range index of a column with at least two valid
entries, `interpolate_missing_values` yields the neighbor-interpolation
value. -/
theorem interpolate_getD_invalid (data : List ColEntry) (i : ℕ)
    (hi : i < data.length) (h2 : 2 ≤ (valid_indices data).length)
    (hni : i ∉ valid_indices data) :
    (interpolate_missing_values data).getD i none =
      interpolate_at data (valid_indices data) i := by
  have hne : ¬ data.isEmpty = true := by
    simp only [List.isEmpty_iff]
    intro h
    rw [h] at hi
    simp at hi
  rw [interpolate_missing_values, if_neg hne, if_neg (not_lt.mpr h2),
    getD_map_range _ _ _ hi, if_neg hni]

/-- Claim C4: per-column interpolation of missing values. A column with
fewer than 2 valid entries (in particular an all-`None` column) is
returned unchanged; a missing entry with valid neighbors on both sides
becomes the linear interpolation between the nearest valid neighbor on
each side; a missing entry with valid entries on only one side takes the
nearest neighbor's value on that side; and concretely
`[1, None, None, 4]` maps to `[1, 2, 3, 4]` and `[None, 2, 3]` to
`[2, 2, 3]`. -/
theorem interpolate_missing_values_spec : ∀ data : List ColEntry,
    ((valid_indices data).length < 2 → interpolate_missing_values data = data)
    ∧ (∀ n : ℕ, interpolate_missing_values (List.replicate n none) =
        List.replicate n none)
    ∧ (∀ i p q y0 y1, i < data.length → data.getD i none = none →
        p < i → data.getD p none = some y0 →
        (∀ j, p < j → j < i → data.getD j none = none) →
        i < q → q < data.length → data.getD q none = some y1 →
        (∀ j, i < j → j < q → data.getD j none = none) →
        (interpolate_missing_values data).getD i none =
          some (y0 + (y1 - y0) * ((i : ℚ) - (p : ℚ)) / ((q : ℚ) - (p : ℚ))))
    ∧ (∀ i p y0, 2 ≤ (valid_indices data).length → i < data.length →
        data.getD i none = none →
        p < i → data.getD p none = some y0 →
        (∀ j, p < j → j < i → data.getD j none = none) →
        (∀ j, i < j → j < data.length → data.getD j none = none) →
        (interpolate_missing_values data).getD i none = some y0)
    ∧ (∀ i q y1, 2 ≤ (valid_indices data).length → i < data.length →
        data.getD i none = none →
        i < q → q < data.length → data.getD q none = some y1 →
        (∀ j, i < j → j < q → data.getD j none = none) →
        (∀ j, j < i → data.getD j none = none) →
        (interpolate_missing_values data).getD i none = some y1)
    ∧ interpolate_missing_values [some 1, none, none, some 4]
        = [some 1, some 2, some 3, some 4]
    ∧ interpolate_missing_values [none, some 2, some 3]
        = [some 2, some 2, some 3] := by
  intro data
  have hsorted := valid_indices_sorted data
  have hunchanged : (valid_indices data).length < 2 →
      interpolate_missing_values data = data := by
    intro hlt
    rw [interpolate_missing_values]
    by_cases he : data.isEmpty = true
    · rw [if_pos he]
    · rw [if_neg he, if_pos hlt]
  refine ⟨hunchanged, ?_, ?_, ?_, ?_, ?_, ?_⟩
  · intro n
    have hv : valid_indices (List.replicate n none) = [] := by
      rw [valid_indices, List.filter_eq_nil_iff]
      intro a ha
      rw [List.mem_range, List.length_replicate] at ha
      simp [List.getD_eq_getElem?_getD, List.getElem?_replicate, ha]
    rw [interpolate_missing_values]
    by_cases he : (List.replicate n (none : ColEntry)).isEmpty = true
    · rw [if_pos he]
    · rw [if_neg he, if_pos (by rw [hv]; simp)]
  · intro i p q y0 y1 hi hinv hpi hpv hleft hiq hq hqv hright
    have hpm : p ∈ valid_indices data :=
      (mem_valid_indices data p).mpr ⟨lt_trans hpi hi, by rw [hpv]; rfl⟩
    have hqm : q ∈ valid_indices data :=
      (mem_valid_indices data q).mpr ⟨hq, by rw [hqv]; rfl⟩
    have hni : i ∉ valid_indices data := by
      intro hc
      have h := ((mem_valid_indices data i).mp hc).2
      rw [hinv] at h
      simp at h
    have h2 : 2 ≤ (valid_indices data).length :=
      two_mem_two_le_length _ p q hpm hqm (by omega)
    have hfl : ((valid_indices data).filter
        fun j => decide (j < i)).getLast? = some p := by
      apply sorted_getLast?_eq _ (List.Pairwise.filter _ hsorted)
      · exact List.mem_filter.mpr ⟨hpm, by simpa using hpi⟩
      · intro j hj
        obtain ⟨hjm, hjlt⟩ := List.mem_filter.mp hj
        rw [decide_eq_true_eq] at hjlt
        by_contra hgt
        push_neg at hgt
        have hjv := ((mem_valid_indices data j).mp hjm).2
        rw [hleft j hgt hjlt] at hjv
        simp at hjv
    have hfh : ((valid_indices data).filter
        fun j => decide (i < j)).head? = some q := by
      apply sorted_head?_eq _ (List.Pairwise.filter _ hsorted)
      · exact List.mem_filter.mpr ⟨hqm, by simpa using hiq⟩
      · intro j hj
        obtain ⟨hjm, hjlt⟩ := List.mem_filter.mp hj
        rw [decide_eq_true_eq] at hjlt
        by_contra hgt
        push_neg at hgt
        have hjv := ((mem_valid_indices data j).mp hjm).2
        rw [hright j hjlt hgt] at hjv
        simp at hjv
    have hpv2 : data[p]?.getD none = some y0 := by
      rw [← List.getD_eq_getElem?_getD]
      exact hpv
    have hqv2 : data[q]?.getD none = some y1 := by
      rw [← List.getD_eq_getElem?_getD]
      exact hqv
    rw [interpolate_getD_invalid data i hi h2 hni, interpolate_at,
      find_prev_next_sorted i _ hsorted hni none, hfl, hfh]
    simp [hpv2, hqv2]
  · intro i p y0 h2 hi hinv hpi hpv hleft hnoright
    have hpm : p ∈ valid_indices data :=
      (mem_valid_indices data p).mpr ⟨lt_trans hpi hi, by rw [hpv]; rfl⟩
    have hni : i ∉ valid_indices data := by
      intro hc
      have h := ((mem_valid_indices data i).mp hc).2
      rw [hinv] at h
      simp at h
    have hfl : ((valid_indices data).filter
        fun j => decide (j < i)).getLast? = some p := by
      apply sorted_getLast?_eq _ (List.Pairwise.filter _ hsorted)
      · exact List.mem_filter.mpr ⟨hpm, by simpa using hpi⟩
      · intro j hj
        obtain ⟨hjm, hjlt⟩ := List.mem_filter.mp hj
        rw [decide_eq_true_eq] at hjlt
        by_contra hgt
        push_neg at hgt
        have hjv := ((mem_valid_indices data j).mp hjm).2
        rw [hleft j hgt hjlt] at hjv
        simp at hjv
    have hfh : ((valid_indices data).filter
        fun j => decide (i < j)) = [] := by
      rw [List.filter_eq_nil_iff]
      intro a ha
      rw [decide_eq_true_eq]
      intro hlt
      have hav := (mem_valid_indices data a).mp ha
      rw [hnoright a hlt hav.1] at hav
      simp at hav
    have hpv2 : data[p]?.getD none = some y0 := by
      rw [← List.getD_eq_getElem?_getD]
      exact hpv
    rw [interpolate_getD_invalid data i hi h2 hni, interpolate_at,
      find_prev_next_sorted i _ hsorted hni none, hfl, hfh]
    simp [hpv2]
  · intro i q y1 h2 hi hinv hiq hq hqv hright hnoleft
    have hqm : q ∈ valid_indices data :=
      (mem_valid_indices data q).mpr ⟨hq, by rw [hqv]; rfl⟩
    have hni : i ∉ valid_indices data := by
      intro hc
      have h := ((mem_valid_indices data i).mp hc).2
      rw [hinv] at h
      simp at h
    have hfl : ((valid_indices data).filter
        fun j => decide (j < i)) = [] := by
      rw [List.filter_eq_nil_iff]
      intro a ha
      rw [decide_eq_true_eq]
      intro hlt
      have hav := (mem_valid_indices data a).mp ha
      rw [hnoleft a hlt] at hav
      simp at hav
    have hfh : ((valid_indices data).filter
        fun j => decide (i < j)).head? = some q := by
      apply sorted_head?_eq _ (List.Pairwise.filter _ hsorted)
      · exact List.mem_filter.mpr ⟨hqm, by simpa using hiq⟩
      · intro j hj
        obtain ⟨hjm, hjlt⟩ := List.mem_filter.mp hj
        rw [decide_eq_true_eq] at hjlt
        by_contra hgt
        push_neg at hgt
        have hjv := ((mem_valid_indices data j).mp hjm).2
        rw [hright j hjlt hgt] at hjv
        simp at hjv
    have hqv2 : data[q]?.getD none = some y1 := by
      rw [← List.getD_eq_getElem?_getD]
      exact hqv
    rw [interpolate_getD_invalid data i hi h2 hni, interpolate_at,
      find_prev_next_sorted i _ hsorted hni none, hfl, hfh]
    simp [hqv2]
  · norm_num [interpolate_missing_values, valid_indices, interpolate_at,
      find_prev_next, List.range_succ, List.getD]
  · norm_num [interpolate_missing_values, valid_indices, interpolate_at,
      find_prev_next, List.range_succ, List.getD]

/-- `StationConfig.STATIONS_COORDINATES` (settings.py 40-45): the four
configured stations with their coordinates, in the dict's insertion
order, which is Python's iteration order. -/
def STATIONS_COORDINATES : List (String × ℚ × ℚ) :=
  [("M5023", -0.3798, -78.1959), ("M5025", -0.3337, -78.1985),
   ("P34", -0.3809, -78.1411), ("P63", -0.3206, -78.1917)]

/-- `GeographicCalculator.calculate_euclidean_distance` (validators.py
59-62): degree-space Euclidean distance, `math.sqrt` modelled by
`Real.sqrt`. -/
noncomputable def calculate_euclidean_distance
    (lat1 lon1 lat2 lon2 : ℝ) : ℝ :=
  Real.sqrt ((lat1 - lat2) ^ 2 + (lon1 - lon2) ^ 2)

/-- The distance computed inside the `find_nearest_station` loop for one
configured station entry. -/
noncomputable def stationDist (lat lon : ℝ) (e : String × ℚ × ℚ) : ℝ :=
  calculate_euclidean_distance lat lon (e.2.1 : ℝ) (e.2.2 : ℝ)

/-- The loop of `StationService.find_nearest_station` (station_service.py
68-82): for each station in iteration order, compute the distance and
keep it iff it is strictly below the running minimum. The initial
`min_distance = float('inf')`, `nearest_station = None` state is the
`(none, none)` accumulator: a `none` running minimum (infinity) is beaten
by every distance. -/
noncomputable def fns_loop (lat lon : ℝ) :
    List (String × ℚ × ℚ) → Option String → Option ℝ →
      Option String × Option ℝ
  | [], best, bestDist => (best, bestDist)
  | e :: rest, best, bestDist =>
    match bestDist with
    | none => fns_loop lat lon rest (some e.1) (some (stationDist lat lon e))
    | some m =>
      if stationDist lat lon e < m then
        fns_loop lat lon rest (some e.1) (some (stationDist lat lon e))
      else fns_loop lat lon rest best bestDist

/-- `StationService.find_nearest_station` (station_service.py 68-82). -/
noncomputable def find_nearest_station (lat lon : ℝ) :
    Option String × Option ℝ :=
  fns_loop lat lon STATIONS_COORDINATES none none

/-- Every distance the loop computes is a square root, hence
non-negative. -/
theorem stationDist_nonneg (lat lon : ℝ) (e : String × ℚ × ℚ) :
    0 ≤ stationDist lat lon e :=
  Real.sqrt_nonneg _

/-- Unfolding the loop one step from a finite running minimum. -/
theorem fns_loop_cons (lat lon : ℝ) (e : String × ℚ × ℚ)
    (rest : List (String × ℚ × ℚ)) (s₀ : String) (d₀ : ℝ) :
    fns_loop lat lon (e :: rest) (some s₀) (some d₀) =
      if stationDist lat lon e < d₀ then
        fns_loop lat lon rest (some e.1) (some (stationDist lat lon e))
      else fns_loop lat lon rest (some s₀) (some d₀) := rfl

/-- Unfolding the loop one step from the initial infinite minimum. -/
theorem fns_loop_cons_none (lat lon : ℝ) (e : String × ℚ × ℚ)
    (rest : List (String × ℚ × ℚ)) (best : Option String) :
    fns_loop lat lon (e :: rest) best none =
      fns_loop lat lon rest (some e.1) (some (stationDist lat lon e)) := rfl

/-- Invariant of the selection loop run from a concrete best-so-far: the
result is the accumulator when nothing beats it, or the last entry that
strictly improved the running minimum; in all cases the returned
distance is a lower bound of the accumulator and all scanned
distances. -/
theorem fns_loop_invariant (lat lon : ℝ) :
    ∀ (l : List (String × ℚ × ℚ)) (s₀ : String) (d₀ : ℝ),
      ∃ s m, fns_loop lat lon l (some s₀) (some d₀) = (some s, some m) ∧
        m ≤ d₀ ∧ (∀ e ∈ l, m ≤ stationDist lat lon e) ∧
        ((s = s₀ ∧ m = d₀ ∧ ∀ e ∈ l, d₀ ≤ stationDist lat lon e) ∨
         (∃ pre e post, l = pre ++ e :: post ∧ s = e.1 ∧
            m = stationDist lat lon e ∧ m < d₀ ∧
            (∀ x ∈ pre, m < stationDist lat lon x) ∧
            (∀ x ∈ post, m ≤ stationDist lat lon x))) := by
  intro l
  induction l with
  | nil =>
    intro s₀ d₀
    exact ⟨s₀, d₀, rfl, le_refl _, by simp, Or.inl ⟨rfl, rfl, by simp⟩⟩
  | cons e rest ih =>
    intro s₀ d₀
    by_cases hlt : stationDist lat lon e < d₀
    · obtain ⟨s, m, heq, hm1, hm2, hcase⟩ := ih e.1 (stationDist lat lon e)
      refine ⟨s, m, ?_, ?_, ?_, ?_⟩
      · rw [fns_loop_cons, if_pos hlt]
        exact heq
      · exact le_of_lt (lt_of_le_of_lt hm1 hlt)
      · intro x hx
        rcases List.mem_cons.mp hx with rfl | hx2
        · exact hm1
        · exact hm2 x hx2
      · rcases hcase with ⟨hs, hmm, hall⟩ |
          ⟨pre, w, post, hsplit, hs, hmm, hmd, hpre, hpost⟩
        · refine Or.inr ⟨[], e, rest, by simp, hs, hmm,
            by rw [hmm]; exact hlt, by simp, ?_⟩
          intro x hx
          rw [hmm]
          exact hall x hx
        · refine Or.inr ⟨e :: pre, w, post, by rw [hsplit]; rfl, hs, hmm,
            lt_trans hmd hlt, ?_, hpost⟩
          intro x hx
          rcases List.mem_cons.mp hx with rfl | hx2
          · exact hmd
          · exact hpre x hx2
    · obtain ⟨s, m, heq, hm1, hm2, hcase⟩ := ih s₀ d₀
      have hge : d₀ ≤ stationDist lat lon e := not_lt.mp hlt
      refine ⟨s, m, ?_, hm1, ?_, ?_⟩
      · rw [fns_loop_cons, if_neg hlt]
        exact heq
      · intro x hx
        rcases List.mem_cons.mp hx with rfl | hx2
        · exact le_trans hm1 hge
        · exact hm2 x hx2
      · rcases hcase with ⟨hs, hmm, hall⟩ |
          ⟨pre, w, post, hsplit, hs, hmm, hmd, hpre, hpost⟩
        · refine Or.inl ⟨hs, hmm, ?_⟩
          intro x hx
          rcases List.mem_cons.mp hx with rfl | hx2
          · exact hge
          · exact hall x hx2
        · refine Or.inr ⟨e :: pre, w, post, by rw [hsplit]; rfl, hs, hmm, hmd,
            ?_, hpost⟩
          intro x hx
          rcases List.mem_cons.mp hx with rfl | hx2
          · exact lt_of_lt_of_le hmd hge
          · exact hpre x hx2

/-- The `k`-th configured station in iteration order. -/
def station (k : ℕ) : String × ℚ × ℚ :=
  STATIONS_COORDINATES.getD k ("", 0, 0)

/-- The first configured station. -/
theorem station_zero : station 0 = ("M5023", -0.3798, -78.1959) := rfl

/-- The second configured station. -/
theorem station_one : station 1 = ("M5025", -0.3337, -78.1985) := rfl

/-- The third configured station. -/
theorem station_two : station 2 = ("P34", -0.3809, -78.1411) := rfl

/-- The fourth configured station. -/
theorem station_three : station 3 = ("P63", -0.3206, -78.1917) := rfl

/-- Strict comparison of loop distances follows from strict comparison
of the squared-degree offsets (`sqrt` is strictly monotone). -/
theorem dist_lt_dist (lat lon : ℝ) (e f : String × ℚ × ℚ)
    (h : ((lat - (e.2.1 : ℝ)) ^ 2 + (lon - (e.2.2 : ℝ)) ^ 2) <
         ((lat - (f.2.1 : ℝ)) ^ 2 + (lon - (f.2.2 : ℝ)) ^ 2)) :
    stationDist lat lon e < stationDist lat lon f :=
  Real.sqrt_lt_sqrt (by positivity) h

/-- Weak comparison of loop distances from the squared offsets. -/
theorem dist_le_dist (lat lon : ℝ) (e f : String × ℚ × ℚ)
    (h : ((lat - (e.2.1 : ℝ)) ^ 2 + (lon - (e.2.2 : ℝ)) ^ 2) ≤
         ((lat - (f.2.1 : ℝ)) ^ 2 + (lon - (f.2.2 : ℝ)) ^ 2)) :
    stationDist lat lon e ≤ stationDist lat lon f :=
  Real.sqrt_le_sqrt h

/-- The degree-space Euclidean distance vanishes exactly at the target
point. -/
theorem euclid_eq_zero_iff (lat lon : ℝ) (a b : ℚ) :
    calculate_euclidean_distance lat lon (a : ℝ) (b : ℝ) = 0 ↔
      lat = (a : ℝ) ∧ lon = (b : ℝ) := by
  rw [calculate_euclidean_distance, Real.sqrt_eq_zero (by positivity)]
  constructor
  · intro h
    have h1 : (lat - (a : ℝ)) ^ 2 = 0 := by
      nlinarith [sq_nonneg (lat - (a : ℝ)), sq_nonneg (lon - (b : ℝ))]
    have h2 : (lon - (b : ℝ)) ^ 2 = 0 := by
      nlinarith [sq_nonneg (lat - (a : ℝ)), sq_nonneg (lon - (b : ℝ))]
    constructor
    · have := (pow_eq_zero_iff (two_ne_zero)).mp h1
      linarith
    · have := (pow_eq_zero_iff (two_ne_zero)).mp h2
      linarith
  · rintro ⟨rfl, rfl⟩
    ring

/-- Characterization of `find_nearest_station`: it returns the name and
distance of the first configured station attaining the minimal
degree-space distance to the query. -/
theorem find_nearest_char (lat lon : ℝ) :
    ∃ w, w < 4 ∧
      find_nearest_station lat lon =
        (some (station w).1, some (stationDist lat lon (station w))) ∧
      (∀ k, k < 4 →
        stationDist lat lon (station w) ≤ stationDist lat lon (station k)) ∧
      (∀ k, k < w →
        stationDist lat lon (station w) < stationDist lat lon (station k)) := by
  have hstep : find_nearest_station lat lon =
      fns_loop lat lon [station 1, station 2, station 3]
        (some (station 0).1) (some (stationDist lat lon (station 0))) := rfl
  obtain ⟨s, m, heq, hm1, hm2, hcase⟩ :=
    fns_loop_invariant lat lon [station 1, station 2, station 3]
      (station 0).1 (stationDist lat lon (station 0))
  rcases hcase with ⟨hs, hmm, hall⟩ |
    ⟨pre, ww, post, hsplit, hs, hmm, hmd, hpre, hpost⟩
  · refine ⟨0, by norm_num, ?_, ?_, ?_⟩
    · rw [hstep, heq, hs, hmm]
    · intro k hk
      interval_cases k
      · exact le_refl _
      · exact hall (station 1) (by simp)
      · exact hall (station 2) (by simp)
      · exact hall (station 3) (by simp)
    · intro k hk
      exact absurd hk (Nat.not_lt_zero k)
  · rcases pre with _ | ⟨a, pre⟩
    · rw [List.nil_append] at hsplit
      injection hsplit with h1 h2
      subst h1
      subst h2
      refine ⟨1, by norm_num, ?_, ?_, ?_⟩
      · rw [hstep, heq, hs, hmm]
      · intro k hk
        interval_cases k
        · exact le_of_lt (by rw [← hmm]; exact hmd)
        · exact le_refl _
        · rw [← hmm]
          exact hpost (station 2) (by simp)
        · rw [← hmm]
          exact hpost (station 3) (by simp)
      · intro k hk
        interval_cases k
        rw [← hmm]
        exact hmd
    · rcases pre with _ | ⟨b, pre⟩
      · simp only [List.cons_append, List.nil_append] at hsplit
        injection hsplit with h1 hrest
        injection hrest with h2 h3
        subst h1
        subst h2
        subst h3
        refine ⟨2, by norm_num, ?_, ?_, ?_⟩
        · rw [hstep, heq, hs, hmm]
        · intro k hk
          interval_cases k
          · exact le_of_lt (by rw [← hmm]; exact hmd)
          · exact le_of_lt (by rw [← hmm]; exact hpre (station 1) (by simp))
          · exact le_refl _
          · rw [← hmm]
            exact hpost (station 3) (by simp)
        · intro k hk
          interval_cases k
          · rw [← hmm]
            exact hmd
          · rw [← hmm]
            exact hpre (station 1) (by simp)
      · rcases pre with _ | ⟨c, pre⟩
        · simp only [List.cons_append, List.nil_append] at hsplit
          injection hsplit with h1 hrest
          injection hrest with h2 hrest2
          injection hrest2 with h3 h4
          subst h1
          subst h2
          subst h3
          refine ⟨3, by norm_num, ?_, ?_, ?_⟩
          · rw [hstep, heq, hs, hmm]
          · intro k hk
            interval_cases k
            · exact le_of_lt (by rw [← hmm]; exact hmd)
            · exact le_of_lt (by rw [← hmm]; exact hpre (station 1) (by simp))
            · exact le_of_lt (by rw [← hmm]; exact hpre (station 2) (by simp))
            · exact le_refl _
          · intro k hk
            interval_cases k
            · rw [← hmm]
              exact hmd
            · rw [← hmm]
              exact hpre (station 1) (by simp)
            · rw [← hmm]
              exact hpre (station 2) (by simp)
        · exfalso
          simp only [List.cons_append] at hsplit
          injection hsplit with h1 hrest
          injection hrest with h2 hrest2
          injection hrest2 with h3 h4
          have hlen := congrArg List.length h4
          simp only [List.length_nil, List.length_append, List.length_cons]
            at hlen
          omega

/-- Claim C7: for every query coordinate the locator returns a station
of the configured set together with its (non-negative) degree-space
distance, the returned distance is minimal over the configured set, and
it is 0 exactly when the query coincides with some configured station's
coordinates. -/
theorem find_nearest_station_spec : ∀ lat lon : ℝ,
    ∃ w, w < 4 ∧
      find_nearest_station lat lon =
        (some (station w).1, some (stationDist lat lon (station w))) ∧
      (station w).1 ∈ station_names ∧
      0 ≤ stationDist lat lon (station w) ∧
      (stationDist lat lon (station w) = 0 ↔
        ∃ k, k < 4 ∧ lat = ((station k).2.1 : ℝ) ∧
          lon = ((station k).2.2 : ℝ)) := by
  intro lat lon
  obtain ⟨w, hw, heq, hmin, -⟩ := find_nearest_char lat lon
  refine ⟨w, hw, heq, ?_, stationDist_nonneg lat lon _, ?_, ?_⟩
  · interval_cases w <;> decide
  · intro h0
    refine ⟨w, hw, ?_⟩
    rw [stationDist] at h0
    exact (euclid_eq_zero_iff lat lon _ _).mp h0
  · rintro ⟨k, hk, hlat, hlon⟩
    have hzero : stationDist lat lon (station k) = 0 := by
      rw [stationDist]
      exact (euclid_eq_zero_iff lat lon _ _).mpr ⟨hlat, hlon⟩
    have h1 := hmin k hk
    have h2 := stationDist_nonneg lat lon (station w)
    rw [hzero] at h1
    linarith

/-- Claim C6 (amended): when two distinct configured stations are
equidistant from the query and that common distance is minimal over the
configured set, the locator returns the first station in configured
iteration order attaining the minimum — the tie is broken by iteration
order among the stations at minimal distance, not merely between the
tied pair. -/
theorem find_nearest_tie_break (lat lon : ℝ) (i j : ℕ) (hi : i < 4)
    (hj : j < 4) (hne : i ≠ j)
    (htie : stationDist lat lon (station i) =
      stationDist lat lon (station j))
    (hmin : ∀ k, k < 4 →
      stationDist lat lon (station i) ≤ stationDist lat lon (station k))
    (hfirst : ∀ k, k < i →
      stationDist lat lon (station i) < stationDist lat lon (station k)) :
    find_nearest_station lat lon =
      (some (station i).1, some (stationDist lat lon (station i))) := by
  obtain ⟨w, hw, heq, hwmin, hwfirst⟩ := find_nearest_char lat lon
  have hwi : w = i := by
    by_contra hne2
    rcases Nat.lt_or_ge w i with hlt | hge
    · have h1 := hfirst w hlt
      have h2 := hwmin i hi
      linarith
    · have hlt : i < w := by omega
      have h1 := hwfirst i hlt
      have h2 := hmin w hw
      linarith
  rw [heq, hwi]

/-- Claim C6 witness: the query (−0.35675, −78.1972) lies on the
perpendicular bisector of M5023 and M5025 with both stations at minimal
distance, and the locator returns M5023, the first of the two in
iteration order. -/
theorem find_nearest_tie_break_at_bisector :
    find_nearest_station (-0.35675 : ℝ) (-78.1972) =
      (some ("M5023"),
       some (stationDist (-0.35675 : ℝ) (-78.1972) (station 0))) := by
  have htie : stationDist (-0.35675 : ℝ) (-78.1972) (station 0) =
      stationDist (-0.35675 : ℝ) (-78.1972) (station 1) := by
    rw [station_zero, station_one, stationDist, stationDist,
      calculate_euclidean_distance, calculate_euclidean_distance]
    congr 1
    push_cast
    norm_num
  have hmin : ∀ k, k < 4 →
      stationDist (-0.35675 : ℝ) (-78.1972) (station 0) ≤
        stationDist (-0.35675 : ℝ) (-78.1972) (station k) := by
    intro k hk
    interval_cases k
    · exact le_refl _
    · exact le_of_eq htie
    · rw [station_zero, station_two]
      apply dist_le_dist
      push_cast
      norm_num
    · rw [station_zero, station_three]
      apply dist_le_dist
      push_cast
      norm_num
  exact find_nearest_tie_break (-0.35675 : ℝ) (-78.1972) 0 1 (by norm_num)
    (by norm_num) (by norm_num) htie hmin
    (fun k hk => absurd hk (Nat.not_lt_zero k))

/-- Claim C6 counterexample: the query (−0.3502, −78.1938) is equidistant
from the distinct configured stations M5023 (the first in iteration
order) and P63, yet the locator returns M5025 — a strictly nearer third
station — not the station appearing first in the configured iteration
order. -/
theorem find_nearest_tie_break_violated :
    stationDist (-0.3502 : ℝ) (-78.1938) (station 0) =
      stationDist (-0.3502 : ℝ) (-78.1938) (station 3) ∧
    (station 0).1 ≠ (station 3).1 ∧
    (find_nearest_station (-0.3502 : ℝ) (-78.1938)).1 = some ("M5025") ∧
    ("M5025" : String) ≠ (station 0).1 ∧
    ("M5025" : String) ≠ (station 3).1 := by
  refine ⟨?_, by decide, ?_, by decide, by decide⟩
  · rw [station_zero, station_three, stationDist, stationDist,
      calculate_euclidean_distance, calculate_euclidean_distance]
    congr 1
    push_cast
    norm_num
  · have h10 : stationDist (-0.3502 : ℝ) (-78.1938) (station 1) <
        stationDist (-0.3502 : ℝ) (-78.1938) (station 0) := by
      rw [station_zero, station_one]
      apply dist_lt_dist
      push_cast
      norm_num
    have h21 : ¬ (stationDist (-0.3502 : ℝ) (-78.1938) (station 2) <
        stationDist (-0.3502 : ℝ) (-78.1938) (station 1)) := by
      apply not_lt.mpr
      rw [station_one, station_two]
      apply dist_le_dist
      push_cast
      norm_num
    have h31 : ¬ (stationDist (-0.3502 : ℝ) (-78.1938) (station 3) <
        stationDist (-0.3502 : ℝ) (-78.1938) (station 1)) := by
      apply not_lt.mpr
      rw [station_one, station_three]
      apply dist_le_dist
      push_cast
      norm_num
    have hrun : find_nearest_station (-0.3502 : ℝ) (-78.1938) =
        (some ((station 1).1),
         some (stationDist (-0.3502 : ℝ) (-78.1938) (station 1))) := by
      show fns_loop (-0.3502 : ℝ) (-78.1938)
        (station 0 :: [station 1, station 2, station 3]) none none = _
      rw [fns_loop_cons_none, fns_loop_cons, if_pos h10, fns_loop_cons,
        if_neg h21, fns_loop_cons, if_neg h31]
      rfl
    rw [hrun]
    rfl

/-- A parsed JSON body for `POST /predict`: each field is `none` when
the key is absent. `latitude`/`longitude` hold the numeric value
`float(...)` yields. -/
structure ReqBody where
  date : Option String
  latitude : Option ℚ
  longitude : Option ℚ
  include_analysis : Bool
  analysis_types : Option (List String)

/-- The externally observable pipeline stages of the `/predict` handler
(steps 4-8 of prediction_routes.py): historical-data fetch,
preprocessing, model prediction, prediction validation, and the optional
Gemini analysis. -/
inductive Step where
  | fetch : Step
  | preprocess : Step
  | runModel : Step
  | validatePreds : Step
  | analysis : Step
deriving DecidableEq

/-- The `details` object of the 503 response (prediction_routes.py
50-54). -/
structure RouteDetails where
  nearest_station : String
  distance : ℝ
  available_stations : List String

/-- What the handler returns: HTTP status, the `success` flag, the 503
`details` object when present, the selected station of a success
response, and the pipeline stages that were entered. -/
structure HttpResult where
  status : ℕ
  success : Bool
  details : Option RouteDetails
  model_station : Option String
  trace : List Step

/-- The 2D feature array of `preprocess_data` (prediction_service.py
29-32): one row per time point with columns in `FEATURE_COLUMNS` order
`[precipitation, temperature, humidity]` (numpy transpose of the three
series; exact for the equal-length series the cleaning produces). -/
def zipRows : List ℚ → List ℚ → List ℚ → List (List ℚ)
  | p :: ps, t :: ts, u :: us => [p, t, u] :: zipRows ps ts us
  | _, _, _ => []

/-- The `/predict` handler (prediction_routes.py 17-131) composed with
the services it calls, over the request-independent environment:
`parses` is whether `datetime.strptime(·, "%Y-%m-%d")` succeeds, `reg`
the station registry, `net` the network outcome of the Open-Meteo
request, `transform` the scaler's forward transform on the 2D array,
`modelRun` the LSTM forward pass on the window batch, `inverse` the
scaler's inverse transform on the output batch.

Control flow: a missing body or missing required field raises
`ValidationError`, caught as HTTP 400. `WeatherDataRequest.__post_init__`
(data_models.py 20-37) then re-checks the date format and coordinate
ranges but raises plain `ValueError`, which only the generic
`except Exception` handler catches: HTTP 500. Then the nearest station
is located; an unavailable model returns 503 with the nearest station,
its distance, and the available stations. Otherwise the pipeline runs:
fetch (network or response-shape failures propagate as 500),
preprocessing (empty data or too-short history as 500; the NaN
interpolation branch is vacuous here since cleaned series are finite
rationals), prediction, validation (invalid predictions return 500),
optional analysis (its failure never fails the request), success 200. -/
noncomputable def predictRoute (parses : String → Bool) (reg : Registry)
    (net : Except Unit ApiResponseData)
    (transform : List (List ℚ) → List (List ℚ))
    (modelRun : List (List (List ℚ)) → List (List PFloat))
    (inverse : List (List PFloat) → List (List PFloat))
    (body? : Option ReqBody) : HttpResult :=
  match body? with
  | none => ⟨400, false, none, none, []⟩
  | some b =>
    if b.date.isNone ∨ b.latitude.isNone ∨ b.longitude.isNone then
      ⟨400, false, none, none, []⟩
    else if ¬ parses (b.date.getD ("")) = true then
      ⟨500, false, none, none, []⟩
    else if ¬ (-90 ≤ b.latitude.getD 0 ∧ b.latitude.getD 0 ≤ 90) then
      ⟨500, false, none, none, []⟩
    else if ¬ (-180 ≤ b.longitude.getD 0 ∧ b.longitude.getD 0 ≤ 180) then
      ⟨500, false, none, none, []⟩
    else
      match find_nearest_station ((b.latitude.getD 0 : ℚ) : ℝ)
          ((b.longitude.getD 0 : ℚ) : ℝ) with
      | (some ns, some dist) =>
        if ¬ is_model_available reg ns = true then
          ⟨503, false, some ⟨ns, dist, get_available_stations reg⟩,
            none, []⟩
        else
          match net with
          | .error _ => ⟨500, false, none, none, [.fetch]⟩
          | .ok resp =>
            match validate_api_response resp with
            | .error _ => ⟨500, false, none, none, [.fetch]⟩
            | .ok _ =>
              match process_api_response resp (b.date.getD (""))
                  (b.date.getD ("")) with
              | none => ⟨500, false, none, none, [.fetch]⟩
              | some hist =>
                if npSize (zipRows hist.precipitations hist.temperatures
                    hist.humidity) = 0 then
                  ⟨500, false, none, none, [.fetch, .preprocess]⟩
                else
                  match create_sequences TIME_STEP
                      (transform (zipRows hist.precipitations
                        hist.temperatures hist.humidity)) with
                  | .error _ =>
                    ⟨500, false, none, none, [.fetch, .preprocess]⟩
                  | .ok X =>
                    if ¬ validate_predictions (inverse (modelRun X)) = true
                    then
                      ⟨500, false, none, none,
                        [.fetch, .preprocess, .runModel, .validatePreds]⟩
                    else if b.include_analysis then
                      ⟨200, true, none, some ns,
                        [.fetch, .preprocess, .runModel, .validatePreds,
                         .analysis]⟩
                    else
                      ⟨200, true, none, some ns,
                        [.fetch, .preprocess, .runModel, .validatePreds]⟩
      | _ => ⟨500, false, none, none, []⟩

/-- Claim C8: a valid request whose nearest station's model is not
available returns `success: false` with HTTP 503, details carrying that
station's id, its distance and the currently available stations — a
list that cannot contain the unavailable nearest station — and no
pipeline stage (fetch, preprocessing, prediction) is entered. -/
theorem predict_unavailable_503 (parses : String → Bool) (reg : Registry)
    (net : Except Unit ApiResponseData)
    (transform : List (List ℚ) → List (List ℚ))
    (modelRun : List (List (List ℚ)) → List (List PFloat))
    (inverse : List (List PFloat) → List (List PFloat))
    (b : ReqBody) (dateStr : String) (lat lon : ℚ) (ns : String)
    (dist : ℝ)
    (hd : b.date = some dateStr) (hla : b.latitude = some lat)
    (hlo : b.longitude = some lon) (hp : parses dateStr = true)
    (h1 : -90 ≤ lat) (h2 : lat ≤ 90) (h3 : -180 ≤ lon) (h4 : lon ≤ 180)
    (hns : find_nearest_station (lat : ℝ) (lon : ℝ) = (some ns, some dist))
    (hun : is_model_available reg ns = false) :
    predictRoute parses reg net transform modelRun inverse (some b) =
      ⟨503, false, some ⟨ns, dist, get_available_stations reg⟩,
        none, []⟩ ∧
    ns ∉ get_available_stations reg := by
  constructor
  · simp only [predictRoute, hd, hla, hlo, Option.isNone_some,
      Option.getD_some]
    rw [if_neg (by simp), if_neg (by simp [hp]),
      if_neg (not_not_intro ⟨h1, h2⟩), if_neg (not_not_intro ⟨h3, h4⟩)]
    split
    · rename_i ns2 dist2 heq
      rw [hns] at heq
      injection heq with ha hb
      injection ha with ha2
      injection hb with hb2
      subst ha2
      subst hb2
      rw [if_pos (by simp [hun])]
    · rename_i x hne
      exact (hne ns dist hns).elim
  · intro hc
    rw [get_available_stations] at hc
    have := (List.mem_filter.mp hc).2
    rw [hun] at this
    cases this

/-- Claim C8 witness: with no models loaded and a request exactly at
M5023's coordinates, the handler answers 503 and M5023 is not among the
available stations. -/
theorem predict_unavailable_503_witness :
    (predictRoute (fun _ => true)
        (load_all_models (fun _ => false) (fun _ => false)) (.error ())
        id (fun _ => []) id
        (some ⟨some ("2024-06-01"), some (-0.3798), some (-78.1959),
          true, none⟩)).status = 503 ∧
    ("M5023" : String) ∉ get_available_stations
        (load_all_models (fun _ => false) (fun _ => false)) := by
  have hd0 : stationDist ((-0.3798 : ℚ) : ℝ) ((-78.1959 : ℚ) : ℝ)
      (station 0) = 0 := by
    rw [station_zero, stationDist, calculate_euclidean_distance]
    push_cast
    norm_num
  have hn1 : ¬ (stationDist ((-0.3798 : ℚ) : ℝ) ((-78.1959 : ℚ) : ℝ)
      (station 1) < stationDist ((-0.3798 : ℚ) : ℝ) ((-78.1959 : ℚ) : ℝ)
      (station 0)) := by
    rw [hd0]
    exact not_lt.mpr (stationDist_nonneg _ _ _)
  have hn2 : ¬ (stationDist ((-0.3798 : ℚ) : ℝ) ((-78.1959 : ℚ) : ℝ)
      (station 2) < stationDist ((-0.3798 : ℚ) : ℝ) ((-78.1959 : ℚ) : ℝ)
      (station 0)) := by
    rw [hd0]
    exact not_lt.mpr (stationDist_nonneg _ _ _)
  have hn3 : ¬ (stationDist ((-0.3798 : ℚ) : ℝ) ((-78.1959 : ℚ) : ℝ)
      (station 3) < stationDist ((-0.3798 : ℚ) : ℝ) ((-78.1959 : ℚ) : ℝ)
      (station 0)) := by
    rw [hd0]
    exact not_lt.mpr (stationDist_nonneg _ _ _)
  have hrun : find_nearest_station ((-0.3798 : ℚ) : ℝ)
      ((-78.1959 : ℚ) : ℝ) =
      (some ("M5023"), some (stationDist ((-0.3798 : ℚ) : ℝ)
        ((-78.1959 : ℚ) : ℝ) (station 0))) := by
    show fns_loop ((-0.3798 : ℚ) : ℝ) ((-78.1959 : ℚ) : ℝ)
      (station 0 :: [station 1, station 2, station 3]) none none = _
    rw [fns_loop_cons_none, fns_loop_cons, if_neg hn1, fns_loop_cons,
      if_neg hn2, fns_loop_cons, if_neg hn3]
    rfl
  have h := predict_unavailable_503 (fun _ => true)
    (load_all_models (fun _ => false) (fun _ => false)) (.error ())
    id (fun _ => []) id
    ⟨some ("2024-06-01"), some (-0.3798), some (-78.1959), true, none⟩
    ("2024-06-01") (-0.3798) (-78.1959) ("M5023")
    (stationDist ((-0.3798 : ℚ) : ℝ) ((-78.1959 : ℚ) : ℝ) (station 0))
    rfl rfl rfl rfl (by norm_num) (by norm_num) (by norm_num)
    (by norm_num) hrun (by decide)
  exact ⟨by rw [h.1], h.2⟩

/-- Claim C1: the `/predict` handler evaluated on requests that carry
the required fields but an out-of-range latitude (91), an out-of-range
longitude (181), or a date string `strptime` rejects. Each is rejected
by `WeatherDataRequest.__post_init__` with a plain `ValueError`, which
the route's generic `except Exception` translates to HTTP 500 — not the
HTTP 400 the `except ValidationError` branch produces (and which a
missing required field does receive). -/
theorem predict_invalid_input_http500 :
    (predictRoute (fun _ => true)
      (load_all_models (fun _ => true) (fun _ => true)) (.error ())
      id (fun _ => []) id
      (some ⟨some ("2024-06-01"), some 91, some 0, true, none⟩)) =
      ⟨500, false, none, none, []⟩ ∧
    (predictRoute (fun _ => true)
      (load_all_models (fun _ => true) (fun _ => true)) (.error ())
      id (fun _ => []) id
      (some ⟨some ("2024-06-01"), some 0, some 181, true, none⟩)) =
      ⟨500, false, none, none, []⟩ ∧
    (predictRoute (fun _ => false)
      (load_all_models (fun _ => true) (fun _ => true)) (.error ())
      id (fun _ => []) id
      (some ⟨some ("not-a-date"), some 0, some 0, true, none⟩)) =
      ⟨500, false, none, none, []⟩ ∧
    (predictRoute (fun _ => true)
      (load_all_models (fun _ => true) (fun _ => true)) (.error ())
      id (fun _ => []) id
      (some ⟨none, some 0, some 0, true, none⟩)) =
      ⟨400, false, none, none, []⟩ ∧
    ¬ ((91 : ℚ) ≤ 90) ∧ ¬ ((181 : ℚ) ≤ 180) := by
  refine ⟨rfl, rfl, rfl, rfl, by norm_num, by norm_num⟩

end Papallacta
